import Mathlib

/-!
# MediGuide — verification of the audio/chat service layer

Shallow embedding of the MediGuide browser chat application
(`src/services/liveService.ts`, the `App` view controller, `src/types.ts`)
and proofs about its playback scheduling, citation deduplication,
PCM quantization round-trip, and error-handling behaviour.

Clock times and sample values are modelled as rationals; machine floats in
the source only ever hold values produced by these exact arithmetic
operations in the regimes the claims quantify over.
-/

namespace MediGuide

/-- A decoded PCM audio buffer, abstracted to its playback `duration` in
seconds — the only field `LiveSession.playAudio` reads.  Web Audio buffer
durations are nonnegative by construction (`length / sampleRate`); theorems
carry that as an explicit hypothesis. -/
structure AudioBuffer where
  duration : ℚ
deriving DecidableEq

/-- A playback node enqueued on the output context by `source.start(t)`:
its scheduled start time and its buffer's duration. -/
structure ScheduledNode where
  start : ℚ
  duration : ℚ
deriving DecidableEq

/-- The playback-scheduling state of a `LiveSession`: the `nextStartTime`
cursor, plus the list of already-enqueued playback nodes (recorded so that
non-cancellation is expressible). From `src/services/liveService.ts`. -/
structure PlaybackState where
  nextStartTime : ℚ
  scheduled : List ScheduledNode
deriving DecidableEq

/-- Playback state of a freshly constructed `LiveSession`
(`nextStartTime` initialised to `0`, nothing scheduled). -/
def initialPlayback : PlaybackState := { nextStartTime := 0, scheduled := [] }

/-- `LiveSession.playAudio` (liveService.ts lines 115–126):
`nextStartTime = max(nextStartTime, outputContext.currentTime)`, the buffer
is scheduled via `source.start(nextStartTime)`, then the cursor advances by
`buffer.duration`.  `currentTime` is the output clock reading at the call. -/
def playAudio (buffer : AudioBuffer) (currentTime : ℚ) (s : PlaybackState) :
    PlaybackState :=
  let start := max s.nextStartTime currentTime
  { nextStartTime := start + buffer.duration
    scheduled := s.scheduled ++ [⟨start, buffer.duration⟩] }

/-- An inbound realtime server message, reduced to the two fields
`handleServerMessage` inspects: a decoded audio payload (if any) and the
`interrupted` flag. -/
structure ServerMessage where
  audioData : Option AudioBuffer
  interrupted : Bool
deriving DecidableEq

/-- `LiveSession.handleServerMessage` (liveService.ts lines 98–113): an
audio payload is decoded and played; then, if `interrupted` is set,
`nextStartTime` is assigned `0`.  The source's comment notes that already
playing nodes are not cancelled — the `scheduled` list is untouched. -/
def handleServerMessage (msg : ServerMessage) (currentTime : ℚ)
    (s : PlaybackState) : PlaybackState :=
  let s1 := match msg.audioData with
    | some buf => playAudio buf currentTime s
    | none => s
  if msg.interrupted then { s1 with nextStartTime := 0 } else s1

/-- A sequence of `playAudio` calls: each element pairs the inbound buffer
with the output clock's reading at the moment it is played. -/
def playSequence (inputs : List (AudioBuffer × ℚ)) (s : PlaybackState) :
    PlaybackState :=
  inputs.foldl (fun st p => playAudio p.1 p.2 st) s

/-- Two consecutively scheduled nodes do not overlap: the earlier one ends
no later than the later one starts. -/
def NoOverlap (a b : ScheduledNode) : Prop := a.start + a.duration ≤ b.start

/-- Scheduling invariant: every already-scheduled node ends no later than
the cursor, and consecutive nodes do not overlap. -/
def SchedInv (s : PlaybackState) : Prop :=
  (∀ n ∈ s.scheduled, n.start + n.duration ≤ s.nextStartTime) ∧
    s.scheduled.Chain' NoOverlap

theorem schedInv_initial : SchedInv initialPlayback := by
  constructor
  · intro n hn; simp [initialPlayback] at hn
  · simp [initialPlayback]

theorem schedInv_playAudio (buffer : AudioBuffer) (currentTime : ℚ)
    (s : PlaybackState) (hd : 0 ≤ buffer.duration) (hs : SchedInv s) :
    SchedInv (playAudio buffer currentTime s) := by
  obtain ⟨hbound, hchain⟩ := hs
  have hstart : s.nextStartTime ≤ max s.nextStartTime currentTime :=
    le_max_left _ _
  constructor
  · intro n hn
    simp only [playAudio, List.mem_append, List.mem_singleton] at hn
    rcases hn with hn | hn
    · exact le_trans (hbound n hn) (le_trans hstart (le_add_of_nonneg_right hd))
    · subst hn; simp [playAudio]
  · simp only [playAudio]
    apply List.Chain'.append hchain (List.chain'_singleton _)
    intro x hx y hy
    simp only [List.head?_cons, Option.mem_def, Option.some.injEq] at hy
    subst hy
    have hxmem : x ∈ s.scheduled := List.mem_of_mem_getLast? hx
    exact le_trans (hbound x hxmem) hstart

theorem schedInv_playSequence (inputs : List (AudioBuffer × ℚ))
    (s : PlaybackState) (hd : ∀ p ∈ inputs, 0 ≤ p.1.duration)
    (hs : SchedInv s) : SchedInv (playSequence inputs s) := by
  induction inputs generalizing s with
  | nil => exact hs
  | cons p rest ih =>
      exact ih _ (fun q hq => hd q (List.mem_cons_of_mem _ hq))
        (schedInv_playAudio _ _ _ (hd p (List.mem_cons_self p rest)) hs)

/-- C1: for every sequence of inbound audio buffers played through an open
Realtime Voice Session via `LiveSession.playAudio`, the scheduled start time
of buffer `i+1` is at least the scheduled start time of buffer `i` plus
buffer `i`'s duration: each start is `max(nextStartTime, currentTime)` and
the cursor then advances by the buffer's duration, so no two scheduled
buffers overlap. -/
theorem playAudio_no_overlap (inputs : List (AudioBuffer × ℚ)) (i : ℕ)
    (hd : ∀ p ∈ inputs, 0 ≤ p.1.duration)
    (hi : i + 1 < (playSequence inputs initialPlayback).scheduled.length) :
    ((playSequence inputs initialPlayback).scheduled.get ⟨i, by omega⟩).start
      + ((playSequence inputs initialPlayback).scheduled.get
          ⟨i, by omega⟩).duration
      ≤ ((playSequence inputs initialPlayback).scheduled.get ⟨i + 1, hi⟩).start := by
  have h :=
    (schedInv_playSequence inputs initialPlayback hd schedInv_initial).2
  exact List.chain'_iff_get.mp h i (by omega)

/-- Witness for C1: two buffers of durations 2 and 3 played at clock
readings 0 and 1; the second scheduled start (2) equals the first start (0)
plus the first duration (2). -/
theorem playAudio_no_overlap_witness :
    (∀ p ∈ [((⟨2⟩ : AudioBuffer), (0 : ℚ)), (⟨3⟩, 1)], 0 ≤ p.1.duration) ∧
    0 + 1 < (playSequence [((⟨2⟩ : AudioBuffer), (0 : ℚ)), (⟨3⟩, 1)]
      initialPlayback).scheduled.length ∧
    ((playSequence [((⟨2⟩ : AudioBuffer), (0 : ℚ)), (⟨3⟩, 1)]
        initialPlayback).scheduled.get ⟨0, by decide⟩).start
      + ((playSequence [((⟨2⟩ : AudioBuffer), (0 : ℚ)), (⟨3⟩, 1)]
          initialPlayback).scheduled.get ⟨0, by decide⟩).duration
      ≤ ((playSequence [((⟨2⟩ : AudioBuffer), (0 : ℚ)), (⟨3⟩, 1)]
          initialPlayback).scheduled.get ⟨0 + 1, by decide⟩).start :=
  ⟨by decide, by decide,
    playAudio_no_overlap [((⟨2⟩ : AudioBuffer), (0 : ℚ)), (⟨3⟩, 1)] 0
      (by decide) (by decide)⟩

/-- C4 counterexample: with the output clock at 3 and the cursor at 5, a
message carrying only the `interrupted` flag sets `nextStartTime` to `0`,
not to the output clock's current time `3` — the source executes
`this.nextStartTime = 0`. -/
theorem handleServerMessage_interrupted_counterexample :
    (handleServerMessage ⟨none, true⟩ 3
        { nextStartTime := 5, scheduled := [⟨0, 2⟩] }).nextStartTime = 0 ∧
    (handleServerMessage ⟨none, true⟩ 3
        { nextStartTime := 5, scheduled := [⟨0, 2⟩] }).nextStartTime ≠ 3 := by
  constructor
  · decide
  · decide

/-- C4 (amended): an `interrupted` message resets `nextStartTime` to `0`
(not to the clock's reading); no already-scheduled playback is cancelled
(the previously scheduled nodes remain, in order); and because `playAudio`
starts at `max(nextStartTime, currentTime)`, the next buffer played after
the interrupt is scheduled exactly at the output clock's (nonnegative)
current time. -/
theorem handleServerMessage_interrupted (msg : ServerMessage) (t t' : ℚ)
    (s : PlaybackState) (b : AudioBuffer)
    (hint : msg.interrupted = true) (ht' : 0 ≤ t') :
    (handleServerMessage msg t s).nextStartTime = 0 ∧
    (handleServerMessage msg t s).scheduled.take s.scheduled.length
      = s.scheduled ∧
    (playAudio b t' (handleServerMessage msg t s)).scheduled.getLast?
      = some ⟨t', b.duration⟩ := by
  obtain ⟨audioData, interrupted⟩ := msg
  simp only at hint
  subst hint
  have h0 : (handleServerMessage ⟨audioData, true⟩ t s).nextStartTime = 0 := by
    simp [handleServerMessage]
  refine ⟨h0, ?_, ?_⟩
  · cases audioData with
    | none => simp [handleServerMessage]
    | some buf =>
        simp only [handleServerMessage, playAudio, if_true]
        rw [List.take_append_of_le_length (le_refl _), List.take_length]
  · simp [playAudio, h0, max_eq_right ht', List.getLast?_concat]

/-- Witness for C4 (amended): concrete interrupted message at clock 3,
cursor 5, one node already scheduled, next play at clock 4 with a buffer
of duration 2. -/
theorem handleServerMessage_interrupted_witness :
    (⟨none, true⟩ : ServerMessage).interrupted = true ∧ (0 : ℚ) ≤ 4 ∧
    ((handleServerMessage ⟨none, true⟩ 3
        { nextStartTime := 5, scheduled := [⟨0, 2⟩] }).nextStartTime = 0 ∧
      (handleServerMessage ⟨none, true⟩ 3
          { nextStartTime := 5, scheduled := [⟨0, 2⟩] }).scheduled.take
          ([⟨0, 2⟩] : List ScheduledNode).length = [⟨0, 2⟩] ∧
      (playAudio ⟨2⟩ 4 (handleServerMessage ⟨none, true⟩ 3
          { nextStartTime := 5, scheduled := [⟨0, 2⟩] })).scheduled.getLast?
        = some ⟨4, 2⟩) :=
  ⟨rfl, by norm_num,
    handleServerMessage_interrupted ⟨none, true⟩ 3 4
      { nextStartTime := 5, scheduled := [⟨0, 2⟩] } ⟨2⟩ rfl (by norm_num)⟩

/-! ## Citation extraction and deduplication (`sendMessageToGemini`) -/

/-- A citation entry: title plus source locator (`GroundingSource` in
`src/types.ts`). -/
structure GroundingSource where
  title : String
  uri : String
deriving DecidableEq

/-- The `web` field of a grounding chunk: both subfields may be absent. -/
structure WebInfo where
  uri : Option String
  title : Option String
deriving DecidableEq

/-- A grounding chunk from the chat response; its `web` field may be
absent (the source accesses it as `chunk.web?.uri`). -/
structure GroundingChunk where
  web : Option WebInfo
deriving DecidableEq

/-- `chunk.web?.uri`: optional chaining through the `web` field. -/
def chunkUri (c : GroundingChunk) : Option String := c.web.bind WebInfo.uri

/-- `chunk.web?.title`: optional chaining through the `web` field. -/
def chunkTitle (c : GroundingChunk) : Option String := c.web.bind WebInfo.title

/-- JavaScript truthiness of an optional string: `undefined` and the empty
string are falsy, every other string is truthy. -/
def truthyStr : Option String → Bool
  | none => false
  | some s => !(s == "")

/-- One `set` step of a JavaScript `Map` (insertion-ordered association
list): an existing key keeps its position and its value is overwritten;
a new key is appended. -/
def mapSet (m : List (String × GroundingSource)) (k : String)
    (v : GroundingSource) : List (String × GroundingSource) :=
  if k ∈ m.map Prod.fst then
    m.map (fun p => if p.1 = k then (k, v) else p)
  else m ++ [(k, v)]

/-- `new Map(sources.map(s => [s.uri, s]))` (liveService.ts line 221):
the entries are inserted left to right, keyed by `uri`. -/
def buildMap (l : List GroundingSource) : List (String × GroundingSource) :=
  l.foldl (fun m s => mapSet m s.uri s) []

/-- `Array.from(map.values())`: the deduplicated sources, in the map's
insertion order of keys. -/
def dedupeSources (l : List GroundingSource) : List GroundingSource :=
  (buildMap l).map Prod.snd

/-- The grounding-chunk filter-and-map of `sendMessageToGemini`
(liveService.ts lines 213–218): chunks whose `web.uri` or `web.title` is
absent (or empty, by JavaScript truthiness) are dropped, the rest become
`{title, uri}` entries. -/
def extractSources (chunks : List GroundingChunk) : List GroundingSource :=
  (chunks.filter
      (fun c => truthyStr (chunkUri c) && truthyStr (chunkTitle c))).map
    (fun c => ⟨(chunkTitle c).getD "", (chunkUri c).getD ""⟩)

/-- The `sources` list returned by `sendMessageToGemini`: extraction
followed by uri-keyed deduplication. -/
def sendMessageSources (chunks : List GroundingChunk) : List GroundingSource :=
  dedupeSources (extractSources chunks)

/-- First-seen order of a list of keys: each key appears once, at the
position of its first occurrence. -/
def firstSeenOrder (l : List String) : List String :=
  l.foldl (fun acc u => if u ∈ acc then acc else acc ++ [u]) []

/-- The last element of `l` whose `uri` equals `u`, if any. -/
def lastOccurrence (l : List GroundingSource) (u : String) :
    Option GroundingSource :=
  (l.filter (fun s => s.uri == u)).getLast?

theorem mapSet_keys (m : List (String × GroundingSource)) (k : String)
    (v : GroundingSource) :
    (mapSet m k v).map Prod.fst =
      if k ∈ m.map Prod.fst then m.map Prod.fst
      else m.map Prod.fst ++ [k] := by
  unfold mapSet
  split
  · rw [List.map_map]
    apply List.map_congr_left
    intro p _
    by_cases hp : p.1 = k
    · simp [hp]
    · simp [hp]
  · simp

theorem mapSet_mem (m : List (String × GroundingSource)) (k : String)
    (v : GroundingSource) (p : String × GroundingSource)
    (hp : p ∈ mapSet m k v) : p = (k, v) ∨ (p ∈ m ∧ p.1 ≠ k) := by
  unfold mapSet at hp
  split at hp
  · obtain ⟨q, hq, rfl⟩ := List.mem_map.mp hp
    by_cases hqk : q.1 = k
    · left; simp [hqk]
    · right; simpa [hqk] using hq
  · rename_i hk
    rcases List.mem_append.mp hp with hm | hone
    · right
      refine ⟨hm, fun hpk => hk ?_⟩
      rw [← hpk]
      exact List.mem_map_of_mem Prod.fst hm
    · left; simpa using hone

theorem lastOccurrence_append_one (pre : List GroundingSource)
    (s : GroundingSource) (u : String) :
    lastOccurrence (pre ++ [s]) u =
      if s.uri = u then some s else lastOccurrence pre u := by
  by_cases h : s.uri = u
  · simp [lastOccurrence, List.filter_append, h, List.getLast?_concat]
  · simp [lastOccurrence, List.filter_append, h]

/-- Invariant tying the association list built so far to the processed
prefix: each entry is keyed by its value's `uri` and holds the last
occurrence of that `uri` in the prefix. -/
def MapConsistent (pre : List GroundingSource)
    (m : List (String × GroundingSource)) : Prop :=
  ∀ p ∈ m, p.2.uri = p.1 ∧ lastOccurrence pre p.1 = some p.2

theorem mapConsistent_step (pre : List GroundingSource)
    (m : List (String × GroundingSource)) (s : GroundingSource)
    (h : MapConsistent pre m) :
    MapConsistent (pre ++ [s]) (mapSet m s.uri s) := by
  intro p hp
  rcases mapSet_mem m s.uri s p hp with rfl | ⟨hpm, hpk⟩
  · exact ⟨rfl, by rw [lastOccurrence_append_one]; simp⟩
  · obtain ⟨h1, h2⟩ := h p hpm
    refine ⟨h1, ?_⟩
    rw [lastOccurrence_append_one, if_neg (fun hc => hpk hc.symm)]
    exact h2

theorem mapConsistent_foldl (l : List GroundingSource)
    (pre : List GroundingSource) (m : List (String × GroundingSource))
    (h : MapConsistent pre m) :
    MapConsistent (pre ++ l) (l.foldl (fun m s => mapSet m s.uri s) m) := by
  induction l generalizing pre m with
  | nil => simpa using h
  | cons s rest ih =>
      have := ih (pre ++ [s]) (mapSet m s.uri s) (mapConsistent_step pre m s h)
      simpa using this

theorem buildMap_consistent (l : List GroundingSource) :
    MapConsistent l (buildMap l) := by
  have h0 : MapConsistent [] ([] : List (String × GroundingSource)) := by
    intro p hp; simp at hp
  simpa [buildMap] using mapConsistent_foldl l [] [] h0

theorem dedupe_lastOccurrence (l : List GroundingSource)
    (s : GroundingSource) (hs : s ∈ dedupeSources l) :
    lastOccurrence l s.uri = some s := by
  obtain ⟨p, hp, rfl⟩ := List.mem_map.mp hs
  obtain ⟨h1, h2⟩ := buildMap_consistent l p hp
  rw [h1]
  exact h2

theorem mem_of_dedupe (l : List GroundingSource) (s : GroundingSource)
    (hs : s ∈ dedupeSources l) : s ∈ l := by
  have h := dedupe_lastOccurrence l s hs
  unfold lastOccurrence at h
  exact List.mem_of_mem_filter (List.mem_of_mem_getLast? h)

theorem foldl_mapSet_keys (l : List GroundingSource)
    (m : List (String × GroundingSource)) :
    (l.foldl (fun m s => mapSet m s.uri s) m).map Prod.fst =
      (l.map GroundingSource.uri).foldl
        (fun acc u => if u ∈ acc then acc else acc ++ [u])
        (m.map Prod.fst) := by
  induction l generalizing m with
  | nil => rfl
  | cons s rest ih =>
      simp only [List.foldl_cons, List.map_cons]
      rw [ih, mapSet_keys]

theorem dedupe_keys (l : List GroundingSource) :
    (dedupeSources l).map GroundingSource.uri =
      firstSeenOrder (l.map GroundingSource.uri) := by
  have hpt : (dedupeSources l).map GroundingSource.uri =
      (buildMap l).map Prod.fst := by
    unfold dedupeSources
    rw [List.map_map]
    apply List.map_congr_left
    intro p hp
    exact (buildMap_consistent l p hp).1
  rw [hpt]
  unfold buildMap firstSeenOrder
  simpa using foldl_mapSet_keys l []

theorem firstSeenOrder_aux_nodup (l : List String) (acc : List String)
    (h : acc.Nodup) :
    (l.foldl (fun acc u => if u ∈ acc then acc else acc ++ [u]) acc).Nodup := by
  induction l generalizing acc with
  | nil => exact h
  | cons x rest ih =>
      simp only [List.foldl_cons]
      by_cases hx : x ∈ acc
      · rw [if_pos hx]; exact ih acc h
      · rw [if_neg hx]
        exact ih (acc ++ [x]) (by simp [List.nodup_append, h, hx])

theorem firstSeenOrder_aux_mem (l : List String) (acc : List String)
    (u : String) :
    u ∈ l.foldl (fun acc u => if u ∈ acc then acc else acc ++ [u]) acc ↔
      u ∈ acc ∨ u ∈ l := by
  induction l generalizing acc with
  | nil => simp
  | cons x rest ih =>
      simp only [List.foldl_cons]
      by_cases hx : x ∈ acc
      · rw [if_pos hx, ih]
        simp only [List.mem_cons]
        constructor
        · rintro (h | h)
          · exact Or.inl h
          · exact Or.inr (Or.inr h)
        · rintro (h | h | h)
          · exact Or.inl h
          · exact Or.inl (h ▸ hx)
          · exact Or.inr h
      · rw [if_neg hx, ih]
        simp only [List.mem_append, List.mem_singleton, List.mem_cons]
        tauto

/-- C2: deduplication in `sendMessageToGemini` returns exactly one entry
per distinct locator (the output uris are duplicate-free and cover exactly
the input uris); the entry kept for a locator is the last occurrence of
that locator in input order (so it carries that occurrence's title); and
the output is ordered by first occurrence of each locator. -/
theorem sendMessage_dedup (l : List GroundingSource) (s : GroundingSource)
    (u : String) (hs : s ∈ dedupeSources l) :
    ((dedupeSources l).map GroundingSource.uri).Nodup ∧
    (u ∈ (dedupeSources l).map GroundingSource.uri ↔
      u ∈ l.map GroundingSource.uri) ∧
    lastOccurrence l s.uri = some s ∧
    (dedupeSources l).map GroundingSource.uri =
      firstSeenOrder (l.map GroundingSource.uri) := by
  refine ⟨?_, ?_, dedupe_lastOccurrence l s hs, dedupe_keys l⟩
  · rw [dedupe_keys]
    exact firstSeenOrder_aux_nodup _ [] List.nodup_nil
  · rw [dedupe_keys]
    unfold firstSeenOrder
    rw [firstSeenOrder_aux_mem]
    simp

/-- Witness for C2: sources `A@u1, B@u2, C@u1` deduplicate to
`C@u1, B@u2` — one entry per uri, last title wins, first-seen order. -/
theorem sendMessage_dedup_witness :
    (⟨"C", "u1"⟩ : GroundingSource) ∈
      dedupeSources [⟨"A", "u1"⟩, ⟨"B", "u2"⟩, ⟨"C", "u1"⟩] ∧
    (((dedupeSources
        [(⟨"A", "u1"⟩ : GroundingSource), ⟨"B", "u2"⟩, ⟨"C", "u1"⟩]).map
        GroundingSource.uri).Nodup ∧
      ("u1" ∈ (dedupeSources
          [(⟨"A", "u1"⟩ : GroundingSource), ⟨"B", "u2"⟩, ⟨"C", "u1"⟩]).map
          GroundingSource.uri ↔
        "u1" ∈ ([(⟨"A", "u1"⟩ : GroundingSource), ⟨"B", "u2"⟩,
          ⟨"C", "u1"⟩]).map GroundingSource.uri) ∧
      lastOccurrence [(⟨"A", "u1"⟩ : GroundingSource), ⟨"B", "u2"⟩,
          ⟨"C", "u1"⟩] (⟨"C", "u1"⟩ : GroundingSource).uri
        = some ⟨"C", "u1"⟩ ∧
      (dedupeSources
          [(⟨"A", "u1"⟩ : GroundingSource), ⟨"B", "u2"⟩, ⟨"C", "u1"⟩]).map
          GroundingSource.uri =
        firstSeenOrder (([(⟨"A", "u1"⟩ : GroundingSource), ⟨"B", "u2"⟩,
          ⟨"C", "u1"⟩]).map GroundingSource.uri)) :=
  ⟨by decide,
    sendMessage_dedup [⟨"A", "u1"⟩, ⟨"B", "u2"⟩, ⟨"C", "u1"⟩] ⟨"C", "u1"⟩
      "u1" (by decide)⟩

/-- C10: `sendMessageToGemini` drops grounding chunks lacking a web uri or
web title (absent or empty by JavaScript truthiness) before deduplication,
so every citation entry in the returned `sources` list carries a nonempty
title and a nonempty locator. -/
theorem sendMessage_sources_present (chunks : List GroundingChunk)
    (s : GroundingSource) (hs : s ∈ sendMessageSources chunks) :
    s.title ≠ "" ∧ s.uri ≠ "" := by
  unfold sendMessageSources at hs
  have hmem : s ∈ extractSources chunks := mem_of_dedupe _ s hs
  unfold extractSources at hmem
  obtain ⟨c, hc, rfl⟩ := List.mem_map.mp hmem
  have hfilt := (List.mem_filter.mp hc).2
  rw [Bool.and_eq_true] at hfilt
  obtain ⟨hu, ht⟩ := hfilt
  constructor
  · cases hct : chunkTitle c with
    | none => rw [hct] at ht; simp [truthyStr] at ht
    | some t =>
        rw [hct] at ht
        simp only [truthyStr, Bool.not_eq_true', beq_eq_false_iff_ne,
          ne_eq] at ht
        simpa [hct] using ht
  · cases hcu : chunkUri c with
    | none => rw [hcu] at hu; simp [truthyStr] at hu
    | some v =>
        rw [hcu] at hu
        simp only [truthyStr, Bool.not_eq_true', beq_eq_false_iff_ne,
          ne_eq] at hu
        simpa [hcu] using hu

/-- Witness for C10: of three chunks (complete, empty-uri, missing `web`),
only the complete one survives, and its entry has nonempty title and uri. -/
theorem sendMessage_sources_present_witness :
    (⟨"T", "u1"⟩ : GroundingSource) ∈ sendMessageSources
      [⟨some ⟨some "u1", some "T"⟩⟩, ⟨some ⟨some "", some "X"⟩⟩, ⟨none⟩] ∧
    ((⟨"T", "u1"⟩ : GroundingSource).title ≠ "" ∧
      (⟨"T", "u1"⟩ : GroundingSource).uri ≠ "") :=
  ⟨by decide,
    sendMessage_sources_present
      [⟨some ⟨some "u1", some "T"⟩⟩, ⟨some ⟨some "", some "X"⟩⟩, ⟨none⟩]
      ⟨"T", "u1"⟩ (by decide)⟩

/-! ## PCM quantization round-trip (Audio Codec Adapter / `generateSpeech`) -/

/-- Modelled from the spec: the upload encoder (`createPcmBlob` in
`services/audioUtils.ts`, a file not among the provided sources) scales a
sample by 32767, rounds (JavaScript `Math.round`, i.e. `⌊t + 1/2⌋`), and
clamps to the signed 16-bit range. -/
def encodeSample (x : ℚ) : ℤ :=
  max (-32768) (min 32767 ⌊x * 32767 + 1 / 2⌋)

/-- The playback decoder (`generateSpeech`, liveService.ts line 271):
`channelData[i] = dataInt16[i] / 32768.0`. -/
def decodeSample (n : ℤ) : ℚ := (n : ℚ) / 32768

/-- C3 counterexample: the sample `x = 3276649/3276700 ∈ [-1,1]`
(`32767·x = 32766.49`, which rounds down to `32766`) round-trips to
`32766/32768`, an absolute error exceeding `1/32768` — the encoder scales
by 32767 while the decoder divides by 32768, so the claimed quantization
bound fails near full scale. -/
theorem pcm_roundtrip_counterexample :
    (-1 : ℚ) ≤ 3276649 / 3276700 ∧ (3276649 / 3276700 : ℚ) ≤ 1 ∧
    1 / 32768 <
      |decodeSample (encodeSample (3276649 / 3276700)) - 3276649 / 3276700| := by
  refine ⟨by norm_num, by norm_num, ?_⟩
  have hf : ⌊(3276649 / 3276700 : ℚ) * 32767 + 1 / 2⌋ = 32766 := by
    rw [Int.floor_eq_iff]
    constructor
    · push_cast
      norm_num
    · push_cast
      norm_num
  have he : encodeSample (3276649 / 3276700) = 32766 := by
    unfold encodeSample
    rw [hf]
    decide
  rw [he]
  unfold decodeSample
  rw [abs_sub_comm]
  rw [abs_of_pos (by push_cast; norm_num)]
  push_cast
  norm_num

/-- C3 (amended): for every sample `x ∈ [-1,1]`, decoding the uploaded
encoding of `x` reconstructs it within `3/65536` (= 1.5/32768) absolute
error.  The claimed `1/32768` bound fails because the encoder multiplies
by 32767 but the decoder divides by 32768; the mismatch contributes up to
`|x|/32768` on top of the `(1/2)/32768` rounding error. -/
theorem pcm_roundtrip_bound (x : ℚ) (h1 : -1 ≤ x) (h2 : x ≤ 1) :
    |decodeSample (encodeSample x) - x| ≤ 3 / 65536 := by
  have hfl : ((⌊x * 32767 + 1 / 2⌋ : ℤ) : ℚ) ≤ x * 32767 + 1 / 2 :=
    Int.floor_le _
  have hfg : x * 32767 + 1 / 2 < ((⌊x * 32767 + 1 / 2⌋ : ℤ) : ℚ) + 1 :=
    Int.lt_floor_add_one _
  have hnlo : (-32768 : ℤ) ≤ ⌊x * 32767 + 1 / 2⌋ := by
    have h : ((-32769 : ℤ) : ℚ) < ((⌊x * 32767 + 1 / 2⌋ : ℤ) : ℚ) := by
      push_cast
      linarith
    have h' : (-32769 : ℤ) < ⌊x * 32767 + 1 / 2⌋ := by exact_mod_cast h
    omega
  have hnhi : ⌊x * 32767 + 1 / 2⌋ ≤ (32767 : ℤ) := by
    have h : ((⌊x * 32767 + 1 / 2⌋ : ℤ) : ℚ) < ((32768 : ℤ) : ℚ) := by
      push_cast
      linarith
    have h' : ⌊x * 32767 + 1 / 2⌋ < (32768 : ℤ) := by exact_mod_cast h
    omega
  have hclamp : encodeSample x = ⌊x * 32767 + 1 / 2⌋ := by
    unfold encodeSample
    rw [min_eq_right hnhi, max_eq_right hnlo]
  rw [hclamp]
  unfold decodeSample
  rw [abs_le]
  constructor
  · linarith
  · linarith

/-- Witness for C3 (amended): the sample `1/2` encodes to `16384` and
decodes back to exactly `1/2`, within the `3/65536` bound. -/
theorem pcm_roundtrip_bound_witness :
    (-1 : ℚ) ≤ 1 / 2 ∧ (1 / 2 : ℚ) ≤ 1 ∧
    |decodeSample (encodeSample (1 / 2)) - 1 / 2| ≤ 3 / 65536 :=
  ⟨by norm_num, by norm_num,
    pcm_roundtrip_bound (1 / 2) (by norm_num) (by norm_num)⟩

/-! ## Conversation View Controller (the `App` component) -/

/-- Author role of a transcript entry (`Role` in src/types.ts). -/
inductive Role
  | user
  | model
deriving DecidableEq

/-- Model-mode selector (`ModelMode` in src/types.ts). -/
inductive ModelMode
  | fast
  | standard
  | thinking
deriving DecidableEq

/-- A transcript entry (`Message` in src/types.ts); `timestamp` is the
`Date.now()` millisecond reading taken when the entry is built. -/
structure Message where
  id : String
  role : Role
  text : String
  timestamp : ℕ
  isError : Bool
  sources : List GroundingSource
deriving DecidableEq

/-- `MODEL_MAP` (liveService.ts lines 179–183). -/
def MODEL_MAP : ModelMode → String
  | .fast => "gemini-2.5-flash-lite"
  | .standard => "gemini-2.5-flash"
  | .thinking => "gemini-3-pro-preview"

/-- The configuration captured by the `Chat` object built by
`createChatSession`: chosen model, the always-enabled search tool, and the
thinking budget added only in `thinking` mode. -/
structure ChatSession where
  model : String
  searchTool : Bool
  thinkingBudget : Option ℕ
deriving DecidableEq

/-- `createChatSession` (liveService.ts lines 185–202). -/
def createChatSession (mode : ModelMode) : ChatSession :=
  { model := MODEL_MAP mode
    searchTool := true
    thinkingBudget := if mode = .thinking then some 32768 else none }

/-- View-controller state of the `App` component: transcript, input box,
loading and initialization flags, and the chat session ref. -/
structure AppState where
  messages : List Message
  inputValue : String
  isLoading : Bool
  isInitializing : Bool
  chatSession : Option ChatSession
deriving DecidableEq

/-- `initChat` (App component): replaces the chat session ref with a fresh
session for `mode` and resets the transcript to the empty list; the
`useEffect` on `[initChat]` runs it on every mode change. -/
def initChat (mode : ModelMode) (s : AppState) : AppState :=
  { s with
      chatSession := some (createChatSession mode)
      messages := []
      isInitializing := false }

/-- JavaScript `a || b` where `a` is an optional string: `undefined` and
`""` are falsy and fall through to the default. -/
def jsOrElse (o : Option String) (d : String) : String :=
  match o with
  | some t => if t = "" then d else t
  | none => d

/-- An outbound chat call `sendMessageToGemini(chat, text)`. -/
structure OutboundCall where
  session : ChatSession
  message : String
deriving DecidableEq

/-- The synchronous phase of `handleSendMessage` (App component, up to the
`await`): computes `textToSend = textOverride || inputValue.trim()`,
returns unchanged with no outbound call when the guard
`!textToSend || isLoading || !chatSessionRef.current` fires, and otherwise
appends the user entry, clears the input, sets the loading flag and issues
the call.  `now` is the `Date.now()` reading. -/
def handleSendMessageStart (textOverride : Option String) (now : ℕ)
    (s : AppState) : AppState × Option OutboundCall :=
  let textToSend := jsOrElse textOverride s.inputValue.trim
  match s.chatSession with
  | none => (s, none)
  | some session =>
      if textToSend = "" ∨ s.isLoading then (s, none)
      else
        ({ s with
            messages := s.messages ++
              [{ id := toString now, role := .user, text := textToSend,
                 timestamp := now, isError := false, sources := [] }]
            inputValue := ""
            isLoading := true },
          some { session := session, message := textToSend })

/-- The value returned by `sendMessageToGemini`: optional reply text plus
the deduplicated sources. -/
structure ChatResponse where
  text : Option String
  sources : List GroundingSource
deriving DecidableEq

/-- Fixed fallback text appended when a text send fails (App component,
`catch` branch of `handleSendMessage`). -/
def fallbackErrorText : String :=
  "I\x27m having trouble connecting right now. Please check your internet connection and try again."

/-- Fixed apology used when the reply carries no text. -/
def noResponseText : String :=
  "I apologize, but I couldn\x27t generate a response. Please try again."

/-- The settle phase of `handleSendMessage`: on success appends the bot
entry (falsy reply text falls back to the apology), on failure appends one
entry flagged `isError` with the fixed fallback text; the `finally` clears
the loading flag either way.  `now` is the `Date.now()` reading in that
branch (the id adds one to it). -/
def handleSendMessageSettle (result : Except String ChatResponse) (now : ℕ)
    (s : AppState) : AppState :=
  match result with
  | .ok response =>
      { s with
          messages := s.messages ++
            [{ id := toString (now + 1), role := .model,
               text := jsOrElse response.text noResponseText,
               timestamp := now, isError := false,
               sources := response.sources }]
          isLoading := false }
  | .error _ =>
      { s with
          messages := s.messages ++
            [{ id := toString (now + 1), role := .model,
               text := fallbackErrorText, timestamp := now, isError := true,
               sources := [] }]
          isLoading := false }

/-- C5: while one text send is in flight (`isLoading = true`), invoking
`handleSendMessage` again — with any input text — performs no second
outbound chat call and leaves the transcript and input state (indeed the
whole controller state) unchanged. -/
theorem handleSendMessage_at_most_one_in_flight
    (textOverride : Option String) (now : ℕ) (s : AppState)
    (h : s.isLoading = true) :
    handleSendMessageStart textOverride now s = (s, none) := by
  unfold handleSendMessageStart
  cases hcs : s.chatSession with
  | none => rfl
  | some session => simp [h]

/-- Witness for C5: a loading state with pending input ignores a second
send request. -/
theorem handleSendMessage_at_most_one_in_flight_witness :
    (⟨[], "hello", true, false, some (createChatSession .standard)⟩ :
        AppState).isLoading = true ∧
    handleSendMessageStart (some "hi") 5
        ⟨[], "hello", true, false, some (createChatSession .standard)⟩ =
      (⟨[], "hello", true, false, some (createChatSession .standard)⟩,
        none) :=
  ⟨rfl,
    handleSendMessage_at_most_one_in_flight (some "hi") 5
      ⟨[], "hello", true, false, some (createChatSession .standard)⟩ rfl⟩

/-- C6: on a mode change `initChat` discards the current Text Chat Session,
installs a fresh session configured for the new mode, and resets the
transcript to the empty list; in particular the thinking-mode session
differs from the standard one. -/
theorem initChat_resets (mode : ModelMode) (s : AppState) :
    (initChat mode s).messages = [] ∧
    (initChat mode s).chatSession = some (createChatSession mode) ∧
    (createChatSession mode).model = MODEL_MAP mode ∧
    createChatSession .thinking ≠ createChatSession .standard := by
  refine ⟨rfl, rfl, rfl, ?_⟩
  decide

/-- C7: when a text send fails, exactly one transcript entry is appended,
flagged `isError` and carrying the fixed fallback message — the same
regardless of the underlying error — the loading flag is cleared, the
session ref is untouched, and a subsequent send with nonempty input issues
a new outbound call on the same session. -/
theorem handleSendMessage_error (s : AppState) (err err2 : String)
    (now now2 : ℕ) (sess : ChatSession) (t : String)
    (hsess : s.chatSession = some sess) (ht : t ≠ "") :
    (handleSendMessageSettle (.error err) now s).messages =
      s.messages ++
        [{ id := toString (now + 1), role := .model,
           text := fallbackErrorText, timestamp := now, isError := true,
           sources := [] }] ∧
    (handleSendMessageSettle (.error err) now s).isLoading = false ∧
    (handleSendMessageSettle (.error err) now s).chatSession =
      s.chatSession ∧
    handleSendMessageSettle (.error err2) now s =
      handleSendMessageSettle (.error err) now s ∧
    (handleSendMessageStart (some t) now2
        (handleSendMessageSettle (.error err) now s)).2 =
      some { session := sess, message := t } := by
  refine ⟨rfl, rfl, rfl, rfl, ?_⟩
  simp [handleSendMessageStart, handleSendMessageSettle, jsOrElse, hsess, ht]

/-- Witness for C7: a failed send on a fresh standard session appends the
flagged fallback entry and the follow-up send goes out. -/
theorem handleSendMessage_error_witness :
    (⟨[], "", false, false, some (createChatSession .standard)⟩ :
        AppState).chatSession = some (createChatSession .standard) ∧
    ("hi" : String) ≠ "" ∧
    ((handleSendMessageSettle (.error "boom") 10
        ⟨[], "", false, false,
          some (createChatSession .standard)⟩).messages =
      [] ++
        [{ id := toString (10 + 1), role := .model,
           text := fallbackErrorText, timestamp := 10, isError := true,
           sources := [] }] ∧
    (handleSendMessageSettle (.error "boom") 10
        ⟨[], "", false, false,
          some (createChatSession .standard)⟩).isLoading = false ∧
    (handleSendMessageSettle (.error "boom") 10
        ⟨[], "", false, false,
          some (createChatSession .standard)⟩).chatSession =
      (⟨[], "", false, false, some (createChatSession .standard)⟩ :
        AppState).chatSession ∧
    handleSendMessageSettle (.error "crash") 10
        ⟨[], "", false, false, some (createChatSession .standard)⟩ =
      handleSendMessageSettle (.error "boom") 10
        ⟨[], "", false, false, some (createChatSession .standard)⟩ ∧
    (handleSendMessageStart (some "hi") 11
        (handleSendMessageSettle (.error "boom") 10
          ⟨[], "", false, false,
            some (createChatSession .standard)⟩)).2 =
      some { session := createChatSession .standard, message := "hi" }) :=
  ⟨rfl, by decide,
    handleSendMessage_error
      ⟨[], "", false, false, some (createChatSession .standard)⟩
      "boom" "crash" 10 11 (createChatSession .standard) "hi" rfl
      (by decide)⟩

/-! ## LiveSession lifecycle, cleanup and error reporting -/

/-- Resource handles a `LiveSession` may hold; `true` means the handle is
open (processor/source nodes connected, media tracks live, audio contexts
not closed). -/
structure Resources where
  processor : Bool
  source : Bool
  streamTracksActive : Bool
  inputContextOpen : Bool
  outputContextOpen : Bool
deriving DecidableEq

/-- `LiveSession` lifecycle state: held resources plus `isActive`. -/
structure SessionState where
  resources : Resources
  isActive : Bool
deriving DecidableEq

/-- A callback invocation surfaced to the constructor's caller. -/
inductive CallbackEvent
  | onOpen
  | onMessage
  | onError
  | onClose
  | onAudioData
deriving DecidableEq

/-- `LiveSession.cleanup` (liveService.ts lines 143–164): disconnects the
processor and the source, stops every media track, and closes both audio
contexts, nulling each field. -/
def cleanup (r : Resources) : Resources :=
  { r with
      processor := false
      source := false
      streamTracksActive := false
      inputContextOpen := false
      outputContextOpen := false }

/-- `LiveSession.disconnect` (lines 128–141): clears `isActive` and runs
`cleanup`. -/
def disconnect (s : SessionState) : SessionState :=
  { resources := cleanup s.resources, isActive := false }

/-- The `onerror` callback wired up in `connect` (lines 46–49): logs and
reports the error to the caller; the session state is not touched. -/
def handleErrorEvent (s : SessionState) : SessionState × List CallbackEvent :=
  (s, [CallbackEvent.onError])

/-- The `catch` branch of `connect` (lines 68–72): a connection failure
reports the error to the caller and then runs `cleanup`. -/
def handleConnectFailure (s : SessionState) :
    SessionState × List CallbackEvent :=
  ({ s with resources := cleanup s.resources }, [CallbackEvent.onError])

/-- The `onclose` callback (lines 50–55): clears `isActive`, reports the
close and runs `cleanup`. -/
def handleCloseEvent (s : SessionState) : SessionState × List CallbackEvent :=
  ({ resources := cleanup s.resources, isActive := false },
    [CallbackEvent.onClose])

/-- C8 counterexample: in the `Open` state (all resources held), an error
delivered through the streaming `onerror` callback reports the error but
leaves every resource exactly as it was — the audio processor is still
connected — whereas a local disconnect releases them all; so the claimed
"same cleanup as a local disconnect on any error" fails. -/
theorem liveSession_error_no_cleanup_counterexample :
    (handleErrorEvent ⟨⟨true, true, true, true, true⟩, true⟩).2 =
      [CallbackEvent.onError] ∧
    (handleErrorEvent
        ⟨⟨true, true, true, true, true⟩, true⟩).1.resources.processor =
      true ∧
    (disconnect ⟨⟨true, true, true, true, true⟩,
        true⟩).resources.processor = false ∧
    (handleErrorEvent ⟨⟨true, true, true, true, true⟩, true⟩).1.resources ≠
      (disconnect ⟨⟨true, true, true, true, true⟩, true⟩).resources := by
  exact ⟨rfl, rfl, rfl, by decide⟩

/-- C8 (amended): every Realtime Voice Session error is reported to the
caller through the error callback; an error that fails `connect`
additionally performs exactly the resource cleanup of a local disconnect;
but an error delivered through the streaming `onerror` callback performs
no cleanup at all — resources are released only if `onclose` fires
afterwards. -/
theorem liveSession_error_handling (s : SessionState) :
    (handleErrorEvent s).2 = [CallbackEvent.onError] ∧
    (handleConnectFailure s).2 = [CallbackEvent.onError] ∧
    (handleConnectFailure s).1.resources = (disconnect s).resources ∧
    (handleErrorEvent s).1 = s ∧
    (handleCloseEvent s).1.resources = (disconnect s).resources :=
  ⟨rfl, rfl, rfl, rfl, rfl⟩

/-! ## `generateSpeech` error behaviour -/

/-- `generateSpeech` (liveService.ts lines 233–279) over the outcome of the
external TTS call: the whole body sits in a `try`, so a thrown API error
returns `null`; a response without inline audio data returns `null`; and
an int16 payload is decoded sample-wise by dividing by 32768. -/
def generateSpeech (apiResult : Except String (Option (List ℤ))) :
    Option (List ℚ) :=
  match apiResult with
  | .error _ => none
  | .ok none => none
  | .ok (some data16) => some (data16.map decodeSample)

/-- C9: `generateSpeech` never propagates a synthesis failure: an API error
is caught and yields `none`, exactly the result of a successful response
with no audio payload, so callers cannot distinguish the two cases. -/
theorem generateSpeech_error_silent (e : String) :
    generateSpeech (.error e) = none ∧
    generateSpeech (.ok none) = none ∧
    generateSpeech (.error e) = generateSpeech (.ok none) :=
  ⟨rfl, rfl, rfl⟩

end MediGuide
